import Mathlib

/-!
Verification of the PDF viewer core of `ai_regulator_ui`.

The definitions below are a shallow embedding of
`src/components/AdvancedPDFViewer.jsx` (the advanced PDF viewer component)
and `src/pages/RunEvaluationPage.jsx` (the page orchestrator).  JavaScript
numbers that hold page indices are modelled as `Int` / `Nat`; `null` /
`undefined` become `Option`; the DOM class list of a text span becomes a
duplicate-free `List String` maintained by `addClass` (mirroring
`classList.add`, which is a no-op on an already-present class); the set of
keys of the `renderedPages` object becomes a `Finset Nat`.
-/

namespace AiRegulatorUI

/-- Longest digit run at the head of `cs`, read as a base-10 integer;
`none` when there is no leading digit (the `NaN` outcome). -/
def parseDigits (cs : List Char) : Option Int :=
  let ds := cs.takeWhile (fun c => c.isDigit)
  if ds.isEmpty then none
  else some (ds.foldl (fun acc c => acc * 10 + ((c.toNat : Int) - 48)) 0)

/-- JavaScript `parseInt(s, 10)`: skip leading whitespace, an optional
sign, then the longest digit run; `none` models the `NaN` result. -/
def parseIntJS (s : String) : Option Int :=
  match s.toList.dropWhile (fun c => c.isWhitespace) with
  | '-' :: rest => (parseDigits rest).map (fun n => -n)
  | '+' :: rest => parseDigits rest
  | cs => parseDigits cs

/-- `String.prototype.toLowerCase` on the character list of a text. -/
def lowerL (cs : List Char) : List Char := cs.map Char.toLower

/-- An evidence entry as consumed by the viewer: `pageNumber` and
`evidence` fields, each possibly missing (`undefined`). -/
structure Evidence where
  pageNumber : Option Int
  evidence : Option (List Char)
deriving DecidableEq

/-- A rendered text fragment of the text layer: its text content and its
DOM class list. -/
structure Span where
  text : List Char
  classes : List String
deriving DecidableEq

/-- The four CSS classes `tryHighlight` adds to a matching span. -/
def highlightClasses : List String :=
  ["bg-yellow-500", "rounded-sm", "px-[1px]", "opacity-50"]

/-- `span.classList.add(c)`: appends `c` unless already present. -/
def addClass (s : Span) (c : String) : Span :=
  if c ∈ s.classes then s else { s with classes := s.classes ++ [c] }

/-- The highlight marker: add all four highlight classes to a span. -/
def markSpan (s : Span) : Span := highlightClasses.foldl addClass s

/-- The evidence filter of `tryHighlight`:
`ev.pageNumber + pageOffset === pageNumber` (false when `pageNumber` is
missing, since `undefined + offset` is `NaN`). -/
def evMatchesPage (pageOffset pageNumber : Int) (ev : Evidence) : Bool :=
  match ev.pageNumber with
  | some pn => pn + pageOffset == pageNumber
  | none => false

/-- The `evidenceText` list built by `tryHighlight`: filter the evidence
entries to the page, then lowercase each entry's text
(`ev.evidence?.toLowerCase()`, `none` when the text is missing). -/
def evidenceTexts (evidences : List Evidence) (pageOffset pageNumber : Int) :
    List (Option (List Char)) :=
  (evidences.filter (evMatchesPage pageOffset pageNumber)).map
    (fun ev => ev.evidence.map lowerL)

/-- The inner loop of `tryHighlight` for one span: for each search text,
if it is present and non-empty (`search &&` truthiness) and contains the
span's text (`search.includes(spanText)`), apply the highlight marker. -/
def applySearches (spanText : List Char) (searches : List (Option (List Char)))
    (s : Span) : Span :=
  searches.foldl
    (fun acc search =>
      match search with
      | some t => if t ≠ [] ∧ spanText <:+: t then markSpan acc else acc
      | none => acc)
    s

/-- Processing of one span by `tryHighlight`: lowercase its text, skip it
when empty (`if (!spanText) return`), otherwise run the search loop. -/
def processSpan (searches : List (Option (List Char))) (s : Span) : Span :=
  let spanText := lowerL s.text
  if spanText = [] then s
  else applySearches spanText searches s

/-- `tryHighlight(pageNumber)` of `AdvancedPDFViewer`, applied to the list
of text-layer spans of the page container.  Guard
`targetPage === pageNumber` compares the raw `targetPage` prop (an
`Option Int`, `null` when absent) with the physical page index; the
evidence list is filtered by offset-resolved page; an empty `evidenceText`
list short-circuits. -/
def tryHighlight (targetPage : Option Int) (pageOffset : Int)
    (evidences : List Evidence) (pageNumber : Int) (spans : List Span) :
    List Span :=
  if targetPage = some pageNumber then
    let searches := evidenceTexts evidences pageOffset pageNumber
    if searches.length = 0 then spans
    else spans.map (processSpan searches)
  else spans

/-- A span is visually marked when it carries all four highlight classes. -/
def Span.marked (s : Span) : Bool :=
  highlightClasses.all (fun c => decide (c ∈ s.classes))

/-- Whether one search entry of the `evidenceText` list matches a span
text: the entry is present, truthy (non-empty) and contains the text. -/
def searchMatch (spanText : List Char) (search : Option (List Char)) : Bool :=
  match search with
  | some t => decide (t ≠ [] ∧ spanText <:+: t)
  | none => false

/-- Default span used with `List.getD`. -/
def emptySpan : Span := ⟨[], []⟩

/-- An evidence entry with both fields present. -/
def wellFormed (ev : Evidence) : Bool :=
  ev.pageNumber.isSome && ev.evidence.isSome

/-- The component-local state of `AdvancedPDFViewer` (the `useState`
hooks), plus `scrollPos`, which models the scroll position of the viewer
container (the effect of `el.scrollIntoView`). -/
structure ViewerState where
  numPages : Option Nat
  renderedPages : Finset Nat
  userPageInput : String
  currentPage : Option Int
  pageOffset : Int
  isEditingOffset : Bool
  offsetInput : String
  scrollPos : Option Int
deriving DecidableEq

/-- The `useState` initial values of the viewer. -/
def initialViewerState : ViewerState :=
  { numPages := none, renderedPages := ∅, userPageInput := "",
    currentPage := none, pageOffset := 0, isEditingOffset := false,
    offsetInput := "0", scrollPos := none }

/-- `const isLoaded = numPages && Object.keys(renderedPages).length >= numPages`
as a truthiness test: falsy when `numPages` is `null` or `0`, otherwise
the comparison of the key count with `numPages`. -/
def isLoaded (s : ViewerState) : Bool :=
  match s.numPages with
  | none => false
  | some n => if n = 0 then false else decide (n ≤ s.renderedPages.card)

/-- `numPages` as it behaves in the numeric comparison of
`handlePageJump` (`actual <= numPages`): `null` coerces to `0`. -/
def numPagesInt (s : ViewerState) : Int :=
  match s.numPages with
  | none => 0
  | some n => (n : Int)

/-- `scrollToPage(actualPageNum)`: look up the DOM anchor
`page_<actualPageNum>` (the `anchors` environment says which anchors the
rendering surface exposes); when present, scroll to it and set the
current-page pointer; when absent, do nothing at all. -/
def scrollToPage (anchors : Int → Bool) (a : Int) (s : ViewerState) :
    ViewerState :=
  if anchors a then { s with currentPage := some a, scrollPos := some a }
  else s

/-- `handlePageJump()`: parse the manual page input; on a parse failure
do nothing; otherwise resolve `actual = target + pageOffset` and scroll
only when `1 <= actual <= numPages`. -/
def handlePageJump (anchors : Int → Bool) (s : ViewerState) : ViewerState :=
  match parseIntJS s.userPageInput with
  | none => s
  | some target =>
      let actual := target + s.pageOffset
      if 1 ≤ actual ∧ actual ≤ numPagesInt s then scrollToPage anchors actual s
      else s

/-- `handleOffsetSave()`: parse the offset input; commit it when it
parses, keep the old offset when it does not; always leave edit mode. -/
def handleOffsetSave (s : ViewerState) : ViewerState :=
  match parseIntJS s.offsetInput with
  | some n => { s with pageOffset := n, isEditingOffset := false }
  | none => { s with isEditingOffset := false }

/-- `onPageRenderSuccess(pageNumber)`: record the page as rendered
(`{ ...prev, [pageNumber]: true }` adds the key to the object). -/
def onPageRenderSuccess (p : Nat) (s : ViewerState) : ViewerState :=
  { s with renderedPages := insert p s.renderedPages }

/-- The rendered-keys set produced by a sequence of
`onPageRenderSuccess` recordings, starting from the empty object. -/
def renderAll (recordings : List Nat) : Finset Nat :=
  recordings.foldl (fun acc p => insert p acc) ∅

/-- The physical page the target-page navigation effect resolves:
`const actualPage = targetPage + pageOffset`. -/
def navResolvedTarget (targetPage pageOffset : Int) : Int :=
  targetPage + pageOffset

/-- The target-page navigation effect of the viewer
(`if (targetPage && isLoaded) ...`): with a truthy target and a loaded
document, resolve the physical page and scroll when it is in range. -/
def targetPageEffect (anchors : Int → Bool) (targetPage : Option Int)
    (s : ViewerState) : ViewerState :=
  match targetPage with
  | none => s
  | some t =>
      if t ≠ 0 ∧ isLoaded s = true then
        let actual := navResolvedTarget t s.pageOffset
        if 1 ≤ actual ∧ actual ≤ numPagesInt s then
          scrollToPage anchors actual s
        else s
      else s

/-- The navigation decision of `tryScrollToAnchor`: `none` unless the
document is loaded, the hash has the `#page-` shape, the printed number
parses, and the offset-resolved page has a key in `renderedPages`;
otherwise the resolved physical page.  `hash.startsWith("#page-")` is the
character-list prefix test, and `hash.replace("#page-", "")` under that
guard removes exactly the six leading characters; the numeric-key lookup
`renderedPages[actualPage]` is true exactly for a non-negative page whose
natural value was recorded. -/
def hashNavTarget (hash : String) (s : ViewerState) : Option Int :=
  if isLoaded s = false then none
  else if decide ("#page-".toList <+: hash.toList) = false then none
  else
    match parseIntJS (String.mk (hash.toList.drop 6)) with
    | none => none
    | some printed =>
        let actual := printed + s.pageOffset
        if 0 ≤ actual ∧ actual.toNat ∈ s.renderedPages then some actual
        else none

/-- `tryScrollToAnchor()` of the hash-navigation effect: scroll when
`hashNavTarget` yields a page, else do nothing. -/
def tryScrollToAnchor (anchors : Int → Bool) (hash : String)
    (s : ViewerState) : ViewerState :=
  match hashNavTarget hash s with
  | some a => scrollToPage anchors a s
  | none => s

/-- The world of the hash-navigation effect: the ambient URL fragment,
the viewer state, and the log of positioning requests issued so far (each
entry is a call to `scrollToPage`, in order). -/
structure World where
  hash : String
  st : ViewerState
  navLog : List Int
deriving DecidableEq

/-- Run `tryScrollToAnchor` against the current hash and state, logging
the positioning request when one is issued. -/
def runHashHandler (anchors : Int → Bool) (w : World) : World :=
  match hashNavTarget w.hash w.st with
  | some a =>
      { w with st := scrollToPage anchors a w.st, navLog := w.navLog ++ [a] }
  | none => w

/-- External events that trigger the hash-navigation effect: a
`hashchange` notification carrying the new fragment, and a
page-render-complete signal (the effect re-runs because its dependencies
are `renderedPages` and `isLoaded`). -/
inductive Ev where
  | hashChange (h : String)
  | renderComplete (p : Nat)
deriving DecidableEq

/-- One step of the deep-link listener: apply the event's state change,
then run the handler against the then-current hash and state. -/
def stepW (anchors : Int → Bool) (w : World) (e : Ev) : World :=
  match e with
  | Ev.hashChange h => runHashHandler anchors { w with hash := h }
  | Ev.renderComplete p =>
      runHashHandler anchors { w with st := onPageRenderSuccess p w.st }

/-- The fragment value current when event `e` is handled. -/
def eventHash (w : World) (e : Ev) : String :=
  match e with
  | Ev.hashChange h => h
  | Ev.renderComplete _ => w.hash

/-- The viewer state current when event `e` is handled. -/
def eventState (w : World) (e : Ev) : ViewerState :=
  match e with
  | Ev.hashChange _ => w.st
  | Ev.renderComplete p => onPageRenderSuccess p w.st

/-- The state of `RunEvaluationPage`: its `useState` hooks plus
`viewerSession`, the state of the mounted `AdvancedPDFViewer` child
(`none` while `pdfVisible` is false, because the viewer is rendered
conditionally and unmounting destroys its component state). -/
structure AppState where
  evaluationData : Option (List Evidence)
  pdfBlobUrl : Option Nat
  pdfVisible : Bool
  error : Option String
  isLoading : Bool
  targetPage : Option Int
  viewerSession : Option ViewerState
deriving DecidableEq

/-- The synchronous head of `handleEvaluate(file, ...)` for a present
file: set loading, clear the error, install the new blob URL `newUrl`,
and hide the viewer (`setPdfVisible(false)`), which unmounts the child
and discards its session state.  `targetPage` is not touched. -/
def handleEvaluateStart (newUrl : Nat) (s : AppState) : AppState :=
  { s with isLoading := true, error := none, pdfBlobUrl := some newUrl,
           pdfVisible := false, viewerSession := none }

/-- `handleOpenPDF(pageNumber)`: set the navigation target and make the
viewer visible; if it was hidden, a fresh viewer mounts with the initial
component state. -/
def handleOpenPDF (p : Int) (s : AppState) : AppState :=
  { s with targetPage := some p, pdfVisible := true,
           viewerSession :=
             if s.pdfVisible then s.viewerSession
             else some initialViewerState }

/-! ### Helper lemmas about the highlight marker -/

theorem text_addClass (s : Span) (c : String) : (addClass s c).text = s.text := by
  unfold addClass
  split <;> rfl

theorem mem_addClass_self (s : Span) (c : String) :
    c ∈ (addClass s c).classes := by
  unfold addClass
  split
  · assumption
  · simp

theorem mem_addClass_of_mem {s : Span} {d : String} (c : String)
    (h : d ∈ s.classes) : d ∈ (addClass s c).classes := by
  unfold addClass
  split
  · exact h
  · simp [h]

theorem addClass_eq_of_mem {s : Span} {c : String} (h : c ∈ s.classes) :
    addClass s c = s := by
  unfold addClass
  simp [h]

theorem text_foldl_addClass (l : List String) (s : Span) :
    (l.foldl addClass s).text = s.text := by
  induction l generalizing s with
  | nil => rfl
  | cons c l ih =>
      rw [List.foldl_cons, ih, text_addClass]

theorem mem_foldl_addClass_of_mem (l : List String) {s : Span} {d : String}
    (h : d ∈ s.classes) : d ∈ (l.foldl addClass s).classes := by
  induction l generalizing s with
  | nil => exact h
  | cons c l ih =>
      rw [List.foldl_cons]
      exact ih (mem_addClass_of_mem c h)

theorem mem_foldl_addClass_self (l : List String) (s : Span) {c : String}
    (h : c ∈ l) : c ∈ (l.foldl addClass s).classes := by
  induction l generalizing s with
  | nil => cases h
  | cons a l ih =>
      rw [List.foldl_cons]
      rcases List.mem_cons.mp h with h1 | h2
      · subst h1
        exact mem_foldl_addClass_of_mem l (mem_addClass_self s c)
      · exact ih (addClass s a) h2

theorem foldl_addClass_eq_of_subset (l : List String) {s : Span}
    (h : ∀ c ∈ l, c ∈ s.classes) : l.foldl addClass s = s := by
  induction l with
  | nil => rfl
  | cons c l ih =>
      rw [List.foldl_cons, addClass_eq_of_mem (h c (List.mem_cons_self c l))]
      exact ih (fun d hd => h d (List.mem_cons_of_mem c hd))

theorem text_markSpan (s : Span) : (markSpan s).text = s.text :=
  text_foldl_addClass highlightClasses s

theorem mem_markSpan (s : Span) {c : String} (h : c ∈ highlightClasses) :
    c ∈ (markSpan s).classes :=
  mem_foldl_addClass_self highlightClasses s h

theorem markSpan_idem (s : Span) : markSpan (markSpan s) = markSpan s :=
  foldl_addClass_eq_of_subset highlightClasses
    (fun _ hc => mem_markSpan s hc)

theorem marked_markSpan (s : Span) : (markSpan s).marked = true := by
  unfold Span.marked
  rw [List.all_eq_true]
  intro c hc
  simpa using mem_markSpan s hc

/-! ### Characterization of the span-processing loop -/

theorem applySearches_cons_some (spanText u : List Char)
    (t : List (Option (List Char))) (s : Span) :
    applySearches spanText (some u :: t) s =
      applySearches spanText t
        (if u ≠ [] ∧ spanText <:+: u then markSpan s else s) := rfl

theorem applySearches_cons_none (spanText : List Char)
    (t : List (Option (List Char))) (s : Span) :
    applySearches spanText (none :: t) s = applySearches spanText t s := rfl

theorem applySearches_eq (spanText : List Char)
    (searches : List (Option (List Char))) (s : Span) :
    applySearches spanText searches s =
      if searches.any (searchMatch spanText) then markSpan s else s := by
  induction searches generalizing s with
  | nil => simp [applySearches]
  | cons a t ih =>
      cases a with
      | none =>
          rw [applySearches_cons_none, ih]
          simp [searchMatch]
      | some u =>
          rw [applySearches_cons_some]
          by_cases hc : u ≠ [] ∧ spanText <:+: u
          · rw [if_pos hc, ih, markSpan_idem]
            have hm : searchMatch spanText (some u) = true := by
              simp [searchMatch, hc]
            simp [hm]
          · rw [if_neg hc, ih]
            have hm : searchMatch spanText (some u) = false := by
              simp only [searchMatch, decide_eq_false_iff_not]
              exact hc
            simp [hm]

theorem processSpan_eq (searches : List (Option (List Char))) (s : Span) :
    processSpan searches s =
      if lowerL s.text = [] then s
      else if searches.any (searchMatch (lowerL s.text)) then markSpan s
      else s := by
  show (if lowerL s.text = [] then s
        else applySearches (lowerL s.text) searches s) = _
  by_cases he : lowerL s.text = []
  · rw [if_pos he, if_pos he]
  · rw [if_neg he, if_neg he, applySearches_eq]

theorem text_processSpan (searches : List (Option (List Char))) (s : Span) :
    (processSpan searches s).text = s.text := by
  rw [processSpan_eq]
  split
  · rfl
  · split
    · exact text_markSpan s
    · rfl

theorem processSpan_idem (searches : List (Option (List Char))) (s : Span) :
    processSpan searches (processSpan searches s) = processSpan searches s := by
  rw [processSpan_eq searches (processSpan searches s), text_processSpan]
  by_cases he : lowerL s.text = []
  · rw [if_pos he]
  · rw [if_neg he]
    by_cases hm : searches.any (searchMatch (lowerL s.text)) = true
    · rw [if_pos hm, processSpan_eq, if_neg he, if_pos hm, markSpan_idem]
    · rw [if_neg hm]

theorem tryHighlight_length (t : Option Int) (off : Int) (evs : List Evidence)
    (p : Int) (spans : List Span) :
    (tryHighlight t off evs p spans).length = spans.length := by
  unfold tryHighlight
  by_cases ht : t = some p
  · rw [if_pos ht]
    show (if (evidenceTexts evs off p).length = 0 then spans
          else spans.map (processSpan (evidenceTexts evs off p))).length =
        spans.length
    split
    · rfl
    · exact List.length_map spans _
  · rw [if_neg ht]

theorem tryHighlight_eq (t : Option Int) (off : Int) (evs : List Evidence)
    (p : Int) (spans : List Span) :
    tryHighlight t off evs p spans =
      if t = some p ∧ (evidenceTexts evs off p).length ≠ 0 then
        spans.map (processSpan (evidenceTexts evs off p))
      else spans := by
  unfold tryHighlight
  by_cases ht : t = some p
  · rw [if_pos ht]
    show (if (evidenceTexts evs off p).length = 0 then spans
          else spans.map (processSpan (evidenceTexts evs off p))) = _
    by_cases hl : (evidenceTexts evs off p).length = 0
    · rw [if_pos hl, if_neg (fun hc => hc.2 hl)]
    · rw [if_neg hl, if_pos ⟨ht, hl⟩]
  · rw [if_neg ht, if_neg (fun hc => ht hc.1)]

/-! ### Helper lemmas about the render tracker -/

theorem mem_foldl_insert (l : List Nat) (acc : Finset Nat) (x : Nat) :
    x ∈ l.foldl (fun acc p => insert p acc) acc ↔ x ∈ l ∨ x ∈ acc := by
  induction l generalizing acc with
  | nil => simp
  | cons a l ih =>
      rw [List.foldl_cons, ih]
      simp only [List.mem_cons, Finset.mem_insert]
      tauto

theorem mem_renderAll (l : List Nat) (x : Nat) : x ∈ renderAll l ↔ x ∈ l := by
  unfold renderAll
  rw [mem_foldl_insert]
  simp

/-! ### Helper lemmas about the deep-link handler -/

theorem hashNavTarget_of_not_loaded {s : ViewerState} (h : String)
    (hl : isLoaded s = false) : hashNavTarget h s = none := by
  unfold hashNavTarget
  rw [hl]
  rfl

theorem runHashHandler_of_none (anchors : Int → Bool) (w : World)
    (h : hashNavTarget w.hash w.st = none) :
    runHashHandler anchors w = w := by
  unfold runHashHandler
  rw [h]

theorem runHashHandler_of_some (anchors : Int → Bool) (w : World) (a : Int)
    (h : hashNavTarget w.hash w.st = some a) :
    runHashHandler anchors w =
      { w with st := scrollToPage anchors a w.st,
               navLog := w.navLog ++ [a] } := by
  unfold runHashHandler
  rw [h]

/-! ### Helper lemmas about malformed evidence -/

theorem evidenceTexts_filter_wellFormed (evs : List Evidence) (off p : Int) :
    evidenceTexts (evs.filter wellFormed) off p =
      (evidenceTexts evs off p).filter (fun o => o.isSome) := by
  induction evs with
  | nil => rfl
  | cons ev evs ih =>
      by_cases hw : wellFormed ev = true
      · by_cases hm : evMatchesPage off p ev = true
        · have hsome : (ev.evidence.map lowerL).isSome = true := by
            have : ev.evidence.isSome = true := by
              unfold wellFormed at hw
              exact (Bool.and_eq_true _ _ |>.mp hw).2
            rcases Option.isSome_iff_exists.mp this with ⟨t, ht⟩
            rw [ht]
            rfl
          simp only [evidenceTexts, List.filter_cons, hw, hm, if_true,
            List.map_cons, hsome]
          rw [← evidenceTexts, ← evidenceTexts, ih]
        · simp only [evidenceTexts, List.filter_cons, hw, hm, if_true,
            if_false, Bool.false_eq_true]
          rw [← evidenceTexts, ← evidenceTexts, ih]
      · by_cases hm : evMatchesPage off p ev = true
        · have hnone : ev.evidence = none := by
            have hp : ev.pageNumber.isSome = true := by
              unfold evMatchesPage at hm
              cases hpn : ev.pageNumber with
              | none => rw [hpn] at hm; cases hm
              | some pn => rfl
            unfold wellFormed at hw
            cases hv : ev.evidence with
            | none => rfl
            | some t =>
                exfalso
                apply hw
                rw [Bool.and_eq_true, hp, hv]
                exact ⟨rfl, rfl⟩
          simp only [evidenceTexts, List.filter_cons, hw, hm, if_true,
            if_false, Bool.false_eq_true, List.map_cons, hnone]
          rw [← evidenceTexts, ← evidenceTexts, ih]
          simp
        · simp only [evidenceTexts, List.filter_cons, hw, hm, if_false,
            Bool.false_eq_true]
          rw [← evidenceTexts, ← evidenceTexts, ih]

theorem applySearches_filter_isSome (st : List Char)
    (L : List (Option (List Char))) (s : Span) :
    applySearches st L s = applySearches st (L.filter (fun o => o.isSome)) s := by
  induction L generalizing s with
  | nil => rfl
  | cons a t ih =>
      cases a with
      | none =>
          rw [applySearches_cons_none, ih]
          simp [List.filter_cons]
      | some u =>
          rw [applySearches_cons_some]
          have : (some u :: t).filter (fun o => o.isSome) =
              some u :: t.filter (fun o => o.isSome) := by
            simp [List.filter_cons]
          rw [this, applySearches_cons_some, ih]

theorem processSpan_filter_isSome (L : List (Option (List Char))) (s : Span) :
    processSpan L s = processSpan (L.filter (fun o => o.isSome)) s := by
  show (if lowerL s.text = [] then s else applySearches (lowerL s.text) L s) = _
  by_cases he : lowerL s.text = []
  · rw [if_pos he]
    show _ = (if lowerL s.text = [] then s
              else applySearches (lowerL s.text) (L.filter (fun o => o.isSome)) s)
    rw [if_pos he]
  · rw [if_neg he]
    show _ = (if lowerL s.text = [] then s
              else applySearches (lowerL s.text) (L.filter (fun o => o.isSome)) s)
    rw [if_neg he, applySearches_filter_isSome]

theorem processSpan_of_filter_nil {L : List (Option (List Char))}
    (h : L.filter (fun o => o.isSome) = []) (s : Span) :
    processSpan L s = s := by
  rw [processSpan_filter_isSome, h, processSpan_eq]
  split
  · rfl
  · simp

/-! ### Claim theorems -/

/-- C10: navigation is atomic with respect to the current-page pointer:
`scrollToPage` updates the pointer (and the scroll position) to `a`
exactly when the rendering surface exposes an anchor for page `a`; when
the anchor is absent the whole state is left untouched. -/
theorem scrollToPage_atomic (anchors : Int → Bool) (a : Int) (s : ViewerState) :
    (anchors a = true →
        scrollToPage anchors a s =
          { s with currentPage := some a, scrollPos := some a })
    ∧ (anchors a = false → scrollToPage anchors a s = s) := by
  constructor <;> intro h <;> simp [scrollToPage, h]

/-- Witness for `scrollToPage_atomic` at a present anchor. -/
theorem scrollToPage_atomic_witness :
    scrollToPage (fun _ => true) 3 initialViewerState =
      { initialViewerState with currentPage := some 3, scrollPos := some 3 } :=
  (scrollToPage_atomic (fun _ => true) 3 initialViewerState).1 rfl

/-- C3: when the page-jump input does not parse as an integer, or the
offset-resolved physical page is out of `[1, totalPages]`,
`handlePageJump` performs no navigation and leaves the whole session
state unchanged (a silent no-op). -/
theorem handlePageJump_silent_noop (anchors : Int → Bool) (s : ViewerState)
    (h : parseIntJS s.userPageInput = none ∨
        ∃ t, parseIntJS s.userPageInput = some t ∧
          (t + s.pageOffset < 1 ∨ numPagesInt s < t + s.pageOffset)) :
    handlePageJump anchors s = s := by
  unfold handlePageJump
  rcases h with h | ⟨t, ht, hrange⟩
  · rw [h]
  · rw [ht]
    show (if 1 ≤ t + s.pageOffset ∧ t + s.pageOffset ≤ numPagesInt s then
            scrollToPage anchors (t + s.pageOffset) s
          else s) = s
    rw [if_neg]
    rintro ⟨h1, h2⟩
    rcases hrange with hr | hr <;> omega

/-- Witness for `handlePageJump_silent_noop` on a non-integer input. -/
theorem handlePageJump_silent_noop_witness :
    handlePageJump (fun _ => true)
      { initialViewerState with userPageInput := "abc", numPages := some 5 } =
      { initialViewerState with userPageInput := "abc", numPages := some 5 } :=
  handlePageJump_silent_noop (fun _ => true)
    { initialViewerState with userPageInput := "abc", numPages := some 5 }
    (Or.inl (by decide))

/-- C5: saving the offset edit commits the parsed integer when the buffer
parses and keeps the prior offset when it does not; in both cases the
control returns to Display mode (`isEditingOffset = false`) with no error
surfaced. -/
theorem handleOffsetSave_spec (s : ViewerState) (hedit : s.isEditingOffset = true) :
    (parseIntJS s.offsetInput = none →
        (handleOffsetSave s).pageOffset = s.pageOffset ∧
          (handleOffsetSave s).isEditingOffset = false)
    ∧ (∀ n, parseIntJS s.offsetInput = some n →
        (handleOffsetSave s).pageOffset = n ∧
          (handleOffsetSave s).isEditingOffset = false) := by
  constructor
  · intro hp
    unfold handleOffsetSave
    rw [hp]
    exact ⟨rfl, rfl⟩
  · intro n hp
    unfold handleOffsetSave
    rw [hp]
    exact ⟨rfl, rfl⟩

/-- Witness for `handleOffsetSave_spec` on a non-integer buffer. -/
theorem handleOffsetSave_spec_witness :
    (handleOffsetSave
        { initialViewerState with
            isEditingOffset := true
            offsetInput := "x"
            pageOffset := 4 }).pageOffset = 4 ∧
      (handleOffsetSave
        { initialViewerState with
            isEditingOffset := true
            offsetInput := "x"
            pageOffset := 4 }).isEditingOffset = false :=
  (handleOffsetSave_spec
      { initialViewerState with
          isEditingOffset := true
          offsetInput := "x"
          pageOffset := 4 } rfl).1 (by decide)

/-- C7: the Evidence Highlight Matcher is idempotent: re-invoking
`tryHighlight` on the already-processed span list of a page, with the
same session state, yields exactly the same span list (in particular no
duplicate markers, since `addClass` models the set semantics of
`classList.add`). -/
theorem tryHighlight_idempotent (t : Option Int) (off : Int)
    (evs : List Evidence) (p : Int) (spans : List Span) :
    tryHighlight t off evs p (tryHighlight t off evs p spans) =
      tryHighlight t off evs p spans := by
  simp only [tryHighlight_eq]
  by_cases hc : t = some p ∧ (evidenceTexts evs off p).length ≠ 0
  · rw [if_pos hc, if_pos hc, List.map_map]
    apply List.map_congr_left
    intro s _
    exact processSpan_idem (evidenceTexts evs off p) s
  · rw [if_neg hc]

/-- C9: malformed evidence entries (missing text or missing page number)
are silently excluded from matching: `tryHighlight` behaves exactly as if
the evidence list had been filtered to its well-formed entries, for every
offset, target and page. -/
theorem tryHighlight_ignores_malformed (t : Option Int) (off : Int)
    (evs : List Evidence) (p : Int) (spans : List Span) :
    tryHighlight t off evs p spans =
      tryHighlight t off (evs.filter wellFormed) p spans := by
  rw [tryHighlight_eq t off evs, tryHighlight_eq t off (evs.filter wellFormed),
    evidenceTexts_filter_wellFormed]
  by_cases ht : t = some p
  · by_cases hf :
        ((evidenceTexts evs off p).filter (fun o => o.isSome)).length = 0
    · have hB : ¬(t = some p ∧
          ((evidenceTexts evs off p).filter (fun o => o.isSome)).length ≠ 0) :=
        fun hc => hc.2 hf
      rw [if_neg hB]
      by_cases hl : (evidenceTexts evs off p).length = 0
      · have hA : ¬(t = some p ∧ (evidenceTexts evs off p).length ≠ 0) :=
          fun hc => hc.2 hl
        rw [if_neg hA]
      · rw [if_pos ⟨ht, hl⟩]
        have hnil : (evidenceTexts evs off p).filter (fun o => o.isSome) = [] :=
          List.length_eq_zero.mp hf
        have hid : ∀ s ∈ spans,
            processSpan (evidenceTexts evs off p) s = id s :=
          fun s _ => processSpan_of_filter_nil hnil s
        rw [List.map_congr_left hid, List.map_id]
    · have hl : (evidenceTexts evs off p).length ≠ 0 := by
        intro h0
        apply hf
        rw [List.length_eq_zero.mp h0]
        rfl
      rw [if_pos ⟨ht, hl⟩, if_pos ⟨ht, hf⟩]
      apply List.map_congr_left
      intro s _
      exact processSpan_filter_isSome (evidenceTexts evs off p) s
  · have hA : ¬(t = some p ∧ (evidenceTexts evs off p).length ≠ 0) :=
      fun hc => ht hc.1
    have hB : ¬(t = some p ∧
        ((evidenceTexts evs off p).filter (fun o => o.isSome)).length ≠ 0) :=
      fun hc => ht hc.1
    rw [if_neg hA, if_neg hB]

/-- C2 counterexample: with `totalPages = 0` known and the (vacuously
complete) empty recording sequence, the claimed equivalence fails: every
index of the empty range `[1, 0]` has been recorded, yet `isLoaded` is
falsy because `numPages && ...` treats `0` as falsy. -/
theorem isLoaded_zero_total_counterexample :
    ¬ (isLoaded { initialViewerState with
          numPages := some 0
          renderedPages := renderAll [] } = true ↔
        ((some 0 : Option Nat).isSome = true ∧
          ∀ i ∈ Finset.Icc 1 0, i ∈ renderAll [])) := by decide

/-- C2 (amended): for recordings drawn from `[1, totalPages]`, the
readiness flag is true iff `totalPages` is known and nonzero and every
index in `[1, totalPages]` has been recorded at least once — in any
order and with arbitrary duplicates. -/
theorem isLoaded_iff_complete (s : ViewerState) (n : Nat)
    (recordings : List Nat) (hn : s.numPages = some n)
    (hr : s.renderedPages = renderAll recordings)
    (hdom : ∀ p ∈ recordings, p ∈ Finset.Icc 1 n) :
    isLoaded s = true ↔
      (n ≠ 0 ∧ ∀ i ∈ Finset.Icc 1 n, i ∈ renderAll recordings) := by
  unfold isLoaded
  rw [hn, hr]
  show (if n = 0 then false else decide (n ≤ (renderAll recordings).card)) =
      true ↔ _
  by_cases h0 : n = 0
  · subst h0
    simp
  · rw [if_neg h0]
    have hsub : renderAll recordings ⊆ Finset.Icc 1 n := by
      intro x hx
      exact hdom x ((mem_renderAll recordings x).mp hx)
    have hicc : (Finset.Icc 1 n).card = n := by
      rw [Nat.card_Icc]
      omega
    constructor
    · intro hc
      refine ⟨h0, ?_⟩
      have hcard : n ≤ (renderAll recordings).card := of_decide_eq_true hc
      have heq : renderAll recordings = Finset.Icc 1 n :=
        Finset.eq_of_subset_of_card_le hsub (by omega)
      intro i hi
      rw [heq]
      exact hi
    · rintro ⟨-, hall⟩
      have hsup : Finset.Icc 1 n ⊆ renderAll recordings :=
        fun i hi => hall i hi
      have hge : (Finset.Icc 1 n).card ≤ (renderAll recordings).card :=
        Finset.card_le_card hsup
      exact decide_eq_true (by omega)

/-- Witness for `isLoaded_iff_complete`: `totalPages = 2`, pages recorded
out of order and with a duplicate. -/
theorem isLoaded_iff_complete_witness :
    isLoaded { initialViewerState with
        numPages := some 2
        renderedPages := renderAll [2, 1, 2] } = true :=
  (isLoaded_iff_complete
      { initialViewerState with
          numPages := some 2
          renderedPages := renderAll [2, 1, 2] }
      2 [2, 1, 2] rfl rfl (by decide)).mpr ⟨by decide, by decide⟩

/-- C1: the failing input evaluated on the code.  With `pageOffset = 1`
and `targetPage = 2`, the navigation effect resolves the targeted
physical page to `navResolvedTarget 2 1 = 3`, yet `tryHighlight` (whose
guard compares the raw `targetPage` prop with the page index) performs a
highlight operation on physical page `2`, marking a span there from an
evidence entry that offset-resolves to page `2`, not to the target `3`. -/
theorem tryHighlight_raw_target_mismatch :
    ((tryHighlight (some 2) 1 [⟨some 1, some ['a', 'b', 'c']⟩] 2
        [⟨['a', 'b', 'c'], []⟩]).getD 0 emptySpan).marked = true ∧
      navResolvedTarget 2 1 ≠ 2 := by decide

/-- C8 counterexample: starting a new evaluation (a document-source
swap) leaves the pending navigation target of the previous document in
place: `handleEvaluateStart` does not touch `targetPage`, so the stale
value `some 7` survives the swap instead of being discarded. -/
theorem handleEvaluate_keeps_targetPage :
    (handleEvaluateStart 2
        { evaluationData := none
          pdfBlobUrl := some 1
          pdfVisible := true
          error := none
          isLoading := false
          targetPage := some 7
          viewerSession := some initialViewerState }).targetPage = some 7 ∧
      (some 7 : Option Int) ≠ none := by decide

/-- C8 (amended): a document-source swap discards the viewer-internal
session (render map, offset state, edit mode) by hiding the viewer, but
the pending navigation target survives in the parent unchanged; the
viewer only becomes visible again through `handleOpenPDF`, which
overwrites the target with the new request and mounts a fresh session. -/
theorem documentSwap_discards_session (u : Nat) (s : AppState) (p : Int)
    (s2 : AppState) :
    (handleEvaluateStart u s).viewerSession = none ∧
      (handleEvaluateStart u s).pdfVisible = false ∧
      (handleEvaluateStart u s).targetPage = s.targetPage ∧
      (handleOpenPDF p s2).targetPage = some p ∧
      (handleOpenPDF p s2).pdfVisible = true ∧
      (s2.pdfVisible = false →
        (handleOpenPDF p s2).viewerSession = some initialViewerState) := by
  refine ⟨rfl, rfl, rfl, rfl, rfl, ?_⟩
  intro h
  unfold handleOpenPDF
  simp [h]

/-- Witness for `documentSwap_discards_session`: reopening the viewer
after a swap mounts a fresh session. -/
theorem documentSwap_discards_session_witness :
    (handleOpenPDF 4
        { evaluationData := none
          pdfBlobUrl := some 1
          pdfVisible := false
          error := none
          isLoading := false
          targetPage := some 7
          viewerSession := none }).viewerSession =
      some initialViewerState :=
  (documentSwap_discards_session 2
      { evaluationData := none
        pdfBlobUrl := some 1
        pdfVisible := false
        error := none
        isLoading := false
        targetPage := some 7
        viewerSession := none }
      4
      { evaluationData := none
        pdfBlobUrl := some 1
        pdfVisible := false
        error := none
        isLoading := false
        targetPage := some 7
        viewerSession := none }).2.2.2.2.2 rfl

/-- C4: on the target page, an initially unmarked rendered fragment ends
up marked if and only if its case-folded text is a non-empty substring
of the case-folded text of at least one evidence entry that
offset-resolves to this page (evidence is the haystack, the fragment the
needle). -/
theorem tryHighlight_marks_iff (off : Int) (evs : List Evidence) (p : Int)
    (spans : List Span) (i : Nat) (hi : i < spans.length)
    (hclean : ∀ s ∈ spans, s.marked = false) :
    ((tryHighlight (some p) off evs p spans).getD i emptySpan).marked = true ↔
      (lowerL (spans.getD i emptySpan).text ≠ [] ∧
        ∃ ev ∈ evs, evMatchesPage off p ev = true ∧
          ∃ txt, ev.evidence = some txt ∧
            lowerL (spans.getD i emptySpan).text <:+: lowerL txt) := by
  rw [tryHighlight_eq]
  rw [List.getD_eq_getElem spans emptySpan hi]
  have hmem : spans[i] ∈ spans := List.getElem_mem hi
  by_cases hl : (evidenceTexts evs off p).length = 0
  · rw [if_neg (fun hc => hc.2 hl)]
    rw [List.getD_eq_getElem spans emptySpan hi]
    rw [hclean spans[i] hmem]
    constructor
    · intro hfalse
      cases hfalse
    · rintro ⟨-, ev, hev, hm, txt, htxt, -⟩
      exfalso
      have : (ev.evidence.map lowerL) ∈ evidenceTexts evs off p := by
        unfold evidenceTexts
        exact List.mem_map_of_mem _ (List.mem_filter.mpr ⟨hev, hm⟩)
      rw [List.length_eq_zero.mp hl] at this
      cases this
  · rw [if_pos ⟨rfl, hl⟩]
    have hlen : i < (spans.map (processSpan (evidenceTexts evs off p))).length := by
      rw [List.length_map]
      exact hi
    rw [List.getD_eq_getElem _ emptySpan hlen, List.getElem_map]
    rw [processSpan_eq]
    by_cases he : lowerL spans[i].text = []
    · rw [if_pos he, hclean spans[i] hmem]
      constructor
      · intro hfalse
        cases hfalse
      · rintro ⟨hne, -⟩
        exact absurd he hne
    · rw [if_neg he]
      by_cases hm : (evidenceTexts evs off p).any
          (searchMatch (lowerL spans[i].text)) = true
      · rw [if_pos hm]
        refine iff_of_true (marked_markSpan spans[i]) ?_
        refine ⟨he, ?_⟩
        rcases List.any_eq_true.mp hm with ⟨o, ho, hso⟩
        rcases List.mem_map.mp ho with ⟨ev, hevf, hgev⟩
        rcases List.mem_filter.mp hevf with ⟨hev, hmatch⟩
        cases hevd : ev.evidence with
        | none =>
            exfalso
            rw [← hgev, hevd] at hso
            cases hso
        | some txt =>
            refine ⟨ev, hev, hmatch, txt, hevd, ?_⟩
            rw [← hgev, hevd] at hso
            have := of_decide_eq_true hso
            exact this.2
      · rw [if_neg hm, hclean spans[i] hmem]
        constructor
        · intro hfalse
          cases hfalse
        · rintro ⟨hne, ev, hev, hmatch, txt, htxt, hinf⟩
          exfalso
          apply hm
          rw [List.any_eq_true]
          refine ⟨some (lowerL txt), ?_, ?_⟩
          · unfold evidenceTexts
            have : ev.evidence.map lowerL = some (lowerL txt) := by
              rw [htxt]
              rfl
            rw [← this]
            exact List.mem_map_of_mem _ (List.mem_filter.mpr ⟨hev, hmatch⟩)
          · have htne : lowerL txt ≠ [] := by
              intro h0
              rw [h0] at hinf
              have hlen0 := hinf.length_le
              simp at hlen0
              exact hne hlen0
            exact decide_eq_true ⟨htne, hinf⟩

/-- Witness for `tryHighlight_marks_iff`: the spec's own example — with
evidence text "the quick brown fox" on the target page, the fragment
"QUICK BROWN" is marked and the fragment "xyz" is not. -/
theorem tryHighlight_marks_iff_witness :
    ((tryHighlight (some 5) 0
        [⟨some 5, some ("the quick brown fox".toList)⟩] 5
        [⟨"QUICK BROWN".toList, []⟩, ⟨"xyz".toList, []⟩]).getD 0
          emptySpan).marked = true ∧
      ((tryHighlight (some 5) 0
        [⟨some 5, some ("the quick brown fox".toList)⟩] 5
        [⟨"QUICK BROWN".toList, []⟩, ⟨"xyz".toList, []⟩]).getD 1
          emptySpan).marked = false := by
  constructor
  · exact (tryHighlight_marks_iff 0
        [⟨some 5, some ("the quick brown fox".toList)⟩] 5
        [⟨"QUICK BROWN".toList, []⟩, ⟨"xyz".toList, []⟩] 0
        (by decide) (by decide)).mpr
      ⟨by decide, ⟨some 5, some ("the quick brown fox".toList)⟩,
        by simp, by decide, "the quick brown fox".toList, rfl, by decide⟩
  · have h := (tryHighlight_marks_iff 0
        [⟨some 5, some ("the quick brown fox".toList)⟩] 5
        [⟨"QUICK BROWN".toList, []⟩, ⟨"xyz".toList, []⟩] 1
        (by decide) (by decide))
    by_cases hb : ((tryHighlight (some 5) 0
        [⟨some 5, some ("the quick brown fox".toList)⟩] 5
        [⟨"QUICK BROWN".toList, []⟩, ⟨"xyz".toList, []⟩]).getD 1
          emptySpan).marked = true
    · exfalso
      rcases h.mp hb with ⟨-, ev, hev, -, txt, htxt, hinf⟩
      have hev1 : ev = ⟨some 5, some ("the quick brown fox".toList)⟩ := by
        simpa using hev
      rw [hev1] at htxt
      have htxt1 : "the quick brown fox".toList = txt := by
        simpa using htxt
      rw [← htxt1] at hinf
      revert hinf
      decide
    · simpa using hb

/-- C6: behaviour of the deep-link listener.
(1) While the session is not ready, a fragment signal triggers no
navigation and is not queued: the step only updates the ambient hash,
leaving the viewer state and the navigation log untouched.
(2) A readiness-relevant render-completion re-evaluates the condition:
when the hash current at that moment resolves to a rendered page, the
navigation is issued right then.
(3) Every navigation issued by any step is derived from the fragment
value current at that step, so superseded earlier fragment values are
never acted on. -/
theorem deepLink_drop_then_honor (anchors : Int → Bool) (w : World) :
    (∀ h, isLoaded w.st = false →
        stepW anchors w (Ev.hashChange h) = { w with hash := h })
    ∧ (∀ p a, hashNavTarget w.hash (onPageRenderSuccess p w.st) = some a →
        (stepW anchors w (Ev.renderComplete p)).navLog = w.navLog ++ [a])
    ∧ (∀ e, (stepW anchors w e).navLog = w.navLog ∨
        ∃ a, (stepW anchors w e).navLog = w.navLog ++ [a] ∧
          hashNavTarget (eventHash w e) (eventState w e) = some a) := by
  refine ⟨?_, ?_, ?_⟩
  · intro h hnl
    show runHashHandler anchors { w with hash := h } = { w with hash := h }
    exact runHashHandler_of_none anchors { w with hash := h }
      (hashNavTarget_of_not_loaded h hnl)
  · intro p a hnav
    show (runHashHandler anchors
        { w with st := onPageRenderSuccess p w.st }).navLog = w.navLog ++ [a]
    rw [runHashHandler_of_some anchors
      { w with st := onPageRenderSuccess p w.st } a hnav]
  · intro e
    cases e with
    | hashChange h =>
        cases hnav : hashNavTarget h w.st with
        | none =>
            left
            show (runHashHandler anchors { w with hash := h }).navLog = w.navLog
            rw [runHashHandler_of_none anchors { w with hash := h } hnav]
        | some a =>
            right
            refine ⟨a, ?_, hnav⟩
            show (runHashHandler anchors { w with hash := h }).navLog =
              w.navLog ++ [a]
            rw [runHashHandler_of_some anchors { w with hash := h } a hnav]
    | renderComplete p =>
        cases hnav : hashNavTarget w.hash (onPageRenderSuccess p w.st) with
        | none =>
            left
            show (runHashHandler anchors
                { w with st := onPageRenderSuccess p w.st }).navLog = w.navLog
            rw [runHashHandler_of_none anchors
              { w with st := onPageRenderSuccess p w.st } hnav]
        | some a =>
            right
            refine ⟨a, ?_, hnav⟩
            show (runHashHandler anchors
                { w with st := onPageRenderSuccess p w.st }).navLog =
              w.navLog ++ [a]
            rw [runHashHandler_of_some anchors
              { w with st := onPageRenderSuccess p w.st } a hnav]

set_option maxHeartbeats 1000000 in
/-- Witness for `deepLink_drop_then_honor`: the fragment "#page-3" is
already current while page 2 of 2 is still missing; no navigation has
happened, and the render completion of page 2 (with offset -1) issues the
navigation to physical page 2 at the readiness transition. -/
theorem deepLink_drop_then_honor_witness :
    (stepW (fun _ => true)
        ⟨"#page-3",
          { initialViewerState with
              numPages := some 2
              renderedPages := {1}
              pageOffset := -1 },
          []⟩
        (Ev.renderComplete 2)).navLog = [2] :=
  (deepLink_drop_then_honor (fun _ => true)
      ⟨"#page-3",
        { initialViewerState with
            numPages := some 2
            renderedPages := {1}
            pageOffset := -1 },
        []⟩).2.1 2 2 (by decide)

end AiRegulatorUI
